import Mathlib

/-!
Verification of the mdbook-tailwindcss preprocessor (`src/main.rs`).

The development shallowly embeds the event-stream transformation of
`process_tailwindcss` together with the `Preprocessor` trait methods:

* `CowStr`, `Tag`, `Event` model the pulldown-cmark event types, keeping only the
  structure the program inspects (the paragraph tag and the three string variants
  of `CowStr`); every other tag or event is collapsed into an opaque variant.
* `scan` models the annotation-detection loop (step 2 of `process_tailwindcss`),
  with Rust slice-indexing panics modelled as `Except.error`.
* `partitionKeywords` models the resolver loop that splits a payload into
  pass-through class names and resolved style declarations.
* `rewrite` models the stream-rewriting loop (step 3), again with slice panics
  modelled as `Except.error`.
* `process_tailwindcss` models the whole chapter transformation including the
  `expect` on the external serializer, and `run` models the per-book driver.
-/

set_option maxHeartbeats 1000000

namespace MdbookTailwind

/-- Model of pulldown-cmark `CowStr`: a string in borrowed, boxed (owned) or
inlined representation.  The payload string is kept in all three variants; only
the constructor distinguishes the representations. -/
inductive CowStr
  | borrowed (s : String)
  | boxed (s : String)
  | inlined (s : String)
  deriving DecidableEq

/-- Model of pulldown-cmark `Tag`: the program only ever inspects `Tag::Paragraph`,
so all other tags are collapsed into an opaque numbered variant. -/
inductive Tag
  | paragraph
  | otherTag (n : Nat)
  deriving DecidableEq

/-- Model of pulldown-cmark `Event`: `Start`, `End`, `Text` and `Html` are the
variants the program constructs or inspects; the rest are opaque. -/
inductive Event
  | start (t : Tag)
  | end_ (t : Tag)
  | text (s : CowStr)
  | html (s : CowStr)
  | otherEvent (n : Nat)
  deriving DecidableEq

/-- Model of the Rust struct holding one detected annotation (its Rust field
`class` is `cls` here because `class` is a Lean keyword). -/
structure ClassAnnot where
  cls : String
  style : String
  paragraph_start : Nat
  paragraph_end : Option Nat
  deriving DecidableEq

/-- Model of `Tailwindcss::supports_renderer`. -/
def supports_renderer (renderer : String) : Bool :=
  renderer == "html"

/-- Model of Rust `text.split("")` on a string: an empty piece, then each
character as a one-character string, then an empty piece. -/
def splitEmpty (s : String) : List String :=
  "" :: (s.data.map (fun c => String.mk [c]) ++ [""])

/-- Model of Rust `.replace('.', "")`: delete every dot character. -/
def removeDots (s : String) : String :=
  String.mk (s.data.filter (fun c => c != '.'))

/-- Model of the annotation test inside the scanner loop: split the text run into
characters, compare the four-element slice at the front against the opening
anchor and the two-element slice at the back against the closing anchor, and on
success extract the dot-stripped payload between the anchors.  Rust slice
indexing that would panic is modelled as `Except.error`; in particular `v[..4]`
panics whenever the text run has fewer than two characters. -/
def detect (t : String) : Except String (Option String) :=
  let v := splitEmpty t
  if 4 ≤ v.length then
    if String.join (v.take 4) = "\x7b:." ∧ String.join (v.drop (v.length - 2)) = "\x7d" then
      if 4 ≤ v.length - 2 then
        Except.ok (some (removeDots (String.join ((v.drop 4).take (v.length - 2 - 4)))))
      else Except.error "slice index starts at 4 but ends before it"
    else Except.ok none
  else Except.error "range end index 4 out of range"

/-- Model of Rust `class.split(' ')`: split on the single space character,
keeping empty pieces produced by leading, trailing or repeated spaces. -/
def splitKeywords (s : String) : List String :=
  (s.data.splitOn ' ').map String.mk

/-- Model of the resolver loop: for each keyword, a successful `tailwind.inline`
call pushes the returned declaration onto the style accumulator, a failed call
pushes the keyword itself onto the class accumulator.  The resolver is passed
explicitly; `some d` models `Ok` with declaration `d` and `none` models `Err`. -/
def partitionKeywords (resolver : String → Option String) (kws : List String) :
    List String × List String :=
  kws.foldl
    (fun acc kls =>
      match resolver kls with
      | some r => (acc.1, acc.2 ++ [r])
      | none => (acc.1 ++ [kls], acc.2))
    ([], [])

/-- Model of the `Event::End(Tag::Paragraph)` arm of the scanner loop: if the
most recently recorded annotation has no paragraph end yet, set it to `i`. -/
def setLastEnd : List ClassAnnot → Nat → List ClassAnnot
  | [], _ => []
  | [a], i =>
    if a.paragraph_end = none then [⟨a.cls, a.style, a.paragraph_start, some i⟩] else [a]
  | a :: b :: rest, i => a :: setLastEnd (b :: rest) i

/-- One iteration of the scanner loop at index `i`: a borrowed text run directly
after a paragraph start is tested with `detect`, a paragraph end updates the
last recorded annotation, and everything else leaves the accumulator unchanged. -/
def scanStep (resolver : String → Option String) (events : List Event)
    (acc : List ClassAnnot) (i : Nat) : Except String (List ClassAnnot) :=
  match events.getD i (Event.otherEvent 0) with
  | Event.text (CowStr.borrowed t) =>
    if 0 < i then
      match events.getD (i - 1) (Event.otherEvent 0) with
      | Event.start Tag.paragraph =>
        match detect t with
        | Except.error m => Except.error m
        | Except.ok none => Except.ok acc
        | Except.ok (some payload) =>
          let p := partitionKeywords resolver (splitKeywords payload)
          Except.ok (acc ++ [⟨String.intercalate " " p.1, String.join p.2, i - 1, none⟩])
      | _ => Except.ok acc
    else Except.ok acc
  | Event.end_ Tag.paragraph => Except.ok (setLastEnd acc i)
  | _ => Except.ok acc

/-- The scanner loop, running `scanStep` at indices `i, i+1, ...` while fuel
lasts and `i` is in range (`scan` supplies exactly enough fuel for the whole
stream, so this is the Rust `for i in 0..len` loop). -/
def scanGo (resolver : String → Option String) (events : List Event) :
    Nat → Nat → List ClassAnnot → Except String (List ClassAnnot)
  | 0, _, acc => Except.ok acc
  | fuel + 1, i, acc =>
    if i < events.length then
      match scanStep resolver events acc i with
      | Except.error m => Except.error m
      | Except.ok acc2 => scanGo resolver events fuel (i + 1) acc2
    else Except.ok acc

/-- Model of step 2 of `process_tailwindcss`: collect the class annotations of
an event stream. -/
def scan (resolver : String → Option String) (events : List Event) :
    Except String (List ClassAnnot) :=
  scanGo resolver events events.length 0 []

/-- Model of the wrapper-open HTML token built for an annotation.  The format
string of the source is reproduced faithfully: there is no equals sign between
`class` and the first quoted value. -/
def divStart (ca : ClassAnnot) : Event :=
  Event.html (CowStr.boxed ("<div class\"" ++ ca.cls ++ "\" style=\"" ++ ca.style ++ "\">"))

/-- Model of the wrapper-close HTML token. -/
def divEnd : Event := Event.html (CowStr.borrowed "</div>")

/-- The rewriter loop of step 3 of `process_tailwindcss`: for each annotation,
push the tokens between the cursor and the paragraph start, the wrapper-open
token, the paragraph-start token, the paragraph tokens from offset 2 on, and the
wrapper-close token; the cursor moves to the recorded paragraph end (not one
past it), and after the loop the tokens from the cursor to the end of the stream
are pushed.  Rust slice indexing that would panic is modelled as `Except.error`. -/
def rewriteGo (incoming divs : List Event) :
    List ClassAnnot → Nat → Nat → Except String (List Event)
  | [], _, last_end =>
    if last_end ≤ incoming.length then Except.ok (incoming.drop last_end)
    else Except.error "slice start index out of range"
  | ca :: rest, i, last_end =>
    if ca.paragraph_start < last_end ∨ incoming.length < ca.paragraph_start then
      Except.error "slice index out of range"
    else
      let pre := (incoming.drop last_end).take (ca.paragraph_start - last_end)
      let newEnd :=
        match ca.paragraph_end with
        | some e => e
        | none => incoming.length - 1
      if newEnd + 1 < ca.paragraph_start ∨ incoming.length < newEnd + 1 then
        Except.error "slice index out of range"
      else
        let paragraph := (incoming.drop ca.paragraph_start).take (newEnd + 1 - ca.paragraph_start)
        if paragraph.length < 1 then Except.error "slice end index 1 out of range"
        else if paragraph.length < 2 then Except.error "slice start index 2 out of range"
        else
          match divs[i]? with
          | none => Except.error "div index out of range"
          | some d =>
            match rewriteGo incoming divs rest (i + 1) newEnd with
            | Except.error m => Except.error m
            | Except.ok rest2 =>
              Except.ok (pre ++ [d] ++ paragraph.take 1 ++ paragraph.drop 2 ++ [divEnd] ++ rest2)

/-- Model of step 3 of `process_tailwindcss`: splice the wrapper tokens around
every recorded annotation. -/
def rewrite (incoming : List Event) (cas : List ClassAnnot) : Except String (List Event) :=
  rewriteGo incoming (cas.map divStart) cas 0 0

/-- Outcome of processing one chapter: normal return with new content, an error
value returned through the `Result` channel of the Rust signature, or a panic
aborting the process. -/
inductive ProcResult
  | ok (content : String)
  | err (e : String)
  | panicked (msg : String)
  deriving DecidableEq

/-- Whether a processing outcome is an error value returned to the caller. -/
def ProcResult.isErrValue : ProcResult → Bool
  | ProcResult.err _ => true
  | _ => false

/-- Model of `process_tailwindcss` on a parsed chapter: scan, rewrite, then
re-render through the external serializer.  A failing serializer hits the
`expect("can re-render cmark")` and panics; the function body never produces
the `err` outcome of its signature. -/
def process_tailwindcss (resolver : String → Option String)
    (ser : List Event → Except String String) (events : List Event) : ProcResult :=
  match scan resolver events with
  | Except.error m => ProcResult.panicked m
  | Except.ok cas =>
    match rewrite events cas with
    | Except.error m => ProcResult.panicked m
    | Except.ok newEvents =>
      match ser newEvents with
      | Except.error _ => ProcResult.panicked "can re-render cmark"
      | Except.ok buf => ProcResult.ok buf

/-- Outcome of running the preprocessor over a whole book. -/
inductive RunResult
  | ok (results : List ProcResult)
  | panicked (msg : String)
  deriving DecidableEq

/-- The driver loop of `Tailwindcss::run`: an error value returned by a chapter
is logged and the loop continues with the siblings, but a panic propagates and
aborts the whole run. -/
def runGo (resolver : String → Option String) (ser : List Event → Except String String)
    (acc : List ProcResult) : List (List Event) → RunResult
  | [] => RunResult.ok acc.reverse
  | ch :: rest =>
    match process_tailwindcss resolver ser ch with
    | ProcResult.panicked m => RunResult.panicked m
    | r => runGo resolver ser (acc ++ [r]) rest

/-- Model of `Tailwindcss::run` over the chapters of a book. -/
def run (resolver : String → Option String) (ser : List Event → Except String String)
    (chapters : List (List Event)) : RunResult :=
  runGo resolver ser [] chapters

/-- Well-formedness of a match list relative to a stream of length `len` and a
cursor: starts are at or after the cursor, each match has a recorded paragraph
end at least two tokens after its start and inside the stream, and the tail is
well formed from that end on.  The scanner produces such lists on well-nested
paragraph streams. -/
def wfMatches (len : Nat) : Nat → List ClassAnnot → Bool
  | _, [] => true
  | cursor, ca :: rest =>
    match ca.paragraph_end with
    | none => false
    | some e =>
      decide (cursor ≤ ca.paragraph_start) && decide (ca.paragraph_start + 2 ≤ e) &&
        decide (e + 1 ≤ len) && wfMatches len e rest

/-- The resolver used in the concrete scenarios: `text-red-500` is the only
known utility and resolves to `color:red;`. -/
def redResolver (k : String) : Option String :=
  if k = "text-red-500" then some "color:red;" else none

/-- Parsed form of a document whose single paragraph is the multi-class
annotation with payload `a.b text-red-500`. -/
def evAB : List Event :=
  [Event.start Tag.paragraph,
    Event.text (CowStr.borrowed "\x7b:.a.b text-red-500\x7d"),
    Event.end_ Tag.paragraph]

/-- Parsed form of the scenario-1 document: an annotation paragraph followed by
a paragraph holding `Hello`. -/
def ev6 : List Event :=
  [Event.start Tag.paragraph,
    Event.text (CowStr.borrowed "\x7b:.text-red-500\x7d"),
    Event.end_ Tag.paragraph,
    Event.start Tag.paragraph,
    Event.text (CowStr.borrowed "Hello"),
    Event.end_ Tag.paragraph]

/-- Parsed form of a document with a single plain paragraph `Hello`. -/
def evHello : List Event :=
  [Event.start Tag.paragraph,
    Event.text (CowStr.borrowed "Hello"),
    Event.end_ Tag.paragraph]

/-- C1 counterexample: on the paragraph with payload `a.b text-red-500` the dots
are deleted rather than treated as separators, so the single detected match has
class names `ab`, not `a b` as the claim states. -/
theorem scan_dot_payload_counterexample :
    scan redResolver evAB = Except.ok [⟨"ab", "color:red;", 0, some 2⟩] ∧
      ("ab" : String) ≠ "a b" :=
  ⟨rfl, by decide⟩

/-- C1 (amended): dots in the payload are removed outright before splitting, so
`a.b` merges into the single keyword `ab`; scanning and resolving the paragraph
with payload `a.b text-red-500` yields class names `ab` and style `color:red;`. -/
theorem scan_dot_payload_merged :
    removeDots "a.b text-red-500" = "ab text-red-500" ∧
      splitKeywords "ab text-red-500" = ["ab", "text-red-500"] ∧
      scan redResolver evAB = Except.ok [⟨"ab", "color:red;", 0, some 2⟩] :=
  ⟨rfl, rfl, rfl⟩

/-- C3: evaluating the scanner on a paragraph whose first text run is the single
character `a` reaches the unguarded four-element front slice of the character
split (which has only three elements) and panics, contradicting the claim that
all slice indexing in the detection path stays in bounds. -/
theorem scan_short_text_panics (resolver : String → Option String) :
    scan resolver
        [Event.start Tag.paragraph, Event.text (CowStr.borrowed "a"),
          Event.end_ Tag.paragraph] =
      Except.error "range end index 4 out of range" :=
  rfl

/-- C4: the wrapper-open token emitted for the scenario-1 match is the literal
`<div class"" style="color:red;">`, which is missing the equals sign after
`class` and therefore is not a well-formed two-attribute container. -/
theorem divStart_missing_equals :
    divStart ⟨"", "color:red;", 0, some 2⟩ =
        Event.html (CowStr.boxed "<div class\"\" style=\"color:red;\">") ∧
      ("<div class\"\" style=\"color:red;\">" : String) ≠
        "<div class=\"\" style=\"color:red;\">" :=
  ⟨rfl, by decide⟩

/-- C6 counterexample: splitting the payload `a  b` (two spaces) keeps the empty
keyword produced by the repeated whitespace, and with a resolver rejecting every
keyword the empty string is appended to the class-name accumulator, contrary to
the claim that empty tokens are discarded. -/
theorem split_empty_keyword_counterexample :
    splitKeywords "a  b" = ["a", "", "b"] ∧
      partitionKeywords (fun _ : String => (none : Option String)) (splitKeywords "a  b") =
        (["a", "", "b"], []) ∧
      "" ∈ (partitionKeywords (fun _ : String => (none : Option String))
        (splitKeywords "a  b")).1 :=
  ⟨rfl, rfl, by decide⟩

/-- C6 (amended): the payload is split on the single space character and empty
tokens are kept, so repeated whitespace (and the empty payload) produce
empty-string keywords that are queried to the resolver and, when unresolved,
appended to the class-name accumulator. -/
theorem splitKeywords_keeps_empty :
    splitKeywords "" = [""] ∧
      splitKeywords "a  b" = ["a", "", "b"] ∧
      (partitionKeywords (fun _ : String => (none : Option String)) (splitKeywords "a  b")).1 =
        ["a", "", "b"] :=
  ⟨rfl, rfl, rfl⟩

/-- C7: `supports_renderer` returns true exactly on the renderer name `html`. -/
theorem supports_renderer_iff (renderer : String) :
    supports_renderer renderer = true ↔ renderer = "html" := by
  simp [supports_renderer]

/-- C8 counterexample: on a plain one-paragraph chapter with a failing external
serializer the chapter transformation panics with the `expect` message instead
of returning an error value to the caller. -/
theorem serializer_failure_counterexample :
    process_tailwindcss redResolver (fun _ => Except.error "serialize failed") evHello =
        ProcResult.panicked "can re-render cmark" ∧
      (process_tailwindcss redResolver (fun _ => Except.error "serialize failed")
          evHello).isErrValue = false :=
  ⟨rfl, rfl⟩

/-- C8 (amended): whenever the scanner and rewriter succeed but the external
serializer fails, `process_tailwindcss` panics with `can re-render cmark`
(rather than returning an error value), and the panic aborts the whole per-book
run instead of letting sibling chapters continue. -/
theorem serializer_failure_panics (resolver : String → Option String)
    (ser : List Event → Except String String) (events : List Event)
    (cas : List ClassAnnot) (newEvents : List Event) (e : String)
    (h1 : scan resolver events = Except.ok cas)
    (h2 : rewrite events cas = Except.ok newEvents)
    (h3 : ser newEvents = Except.error e) :
    process_tailwindcss resolver ser events = ProcResult.panicked "can re-render cmark" ∧
      run resolver ser [events] = RunResult.panicked "can re-render cmark" := by
  have hp : process_tailwindcss resolver ser events =
      ProcResult.panicked "can re-render cmark" := by
    simp [process_tailwindcss, h1, h2, h3]
  exact ⟨hp, by simp [run, runGo, hp]⟩

/-- C8 witness: the amended statement instantiated on the one-paragraph `Hello`
chapter with a serializer that always fails. -/
theorem serializer_failure_panics_witness :
    process_tailwindcss redResolver (fun _ => Except.error "boom") evHello =
        ProcResult.panicked "can re-render cmark" ∧
      run redResolver (fun _ => Except.error "boom") [evHello] =
        RunResult.panicked "can re-render cmark" :=
  serializer_failure_panics redResolver (fun _ => Except.error "boom") evHello [] evHello
    "boom" rfl rfl rfl

/-- C10: a paragraph-initial text run carried in the boxed (owned) or inlined
representation is never detected — even when its content is an annotation
pattern — and with no matches the rewriter returns the stream unchanged. -/
theorem boxed_text_not_detected (resolver : String → Option String) (s : String) :
    scan resolver
        [Event.start Tag.paragraph, Event.text (CowStr.boxed s), Event.end_ Tag.paragraph] =
        Except.ok [] ∧
      scan resolver
          [Event.start Tag.paragraph, Event.text (CowStr.inlined s), Event.end_ Tag.paragraph] =
        Except.ok [] ∧
      rewrite [Event.start Tag.paragraph, Event.text (CowStr.boxed s), Event.end_ Tag.paragraph]
          [] =
        Except.ok
          [Event.start Tag.paragraph, Event.text (CowStr.boxed s), Event.end_ Tag.paragraph] :=
  ⟨rfl, rfl, rfl⟩

/-- C2 counterexample: on the scenario-1 stream (six tokens, one match) the
rewritten stream has eight tokens, not six plus one as the claim states; the
cursor stops at the paragraph-end index, so that token is emitted twice. -/
theorem rewrite_count_counterexample :
    (rewrite ev6 [⟨"", "color:red;", 0, some 2⟩]).map List.length ≠
        Except.ok (ev6.length + 1) ∧
      (rewrite ev6 [⟨"", "color:red;", 0, some 2⟩]).map List.length =
        Except.ok (ev6.length + 2) := by
  refine ⟨?_, rfl⟩
  intro h
  have h2 : (Except.ok 8 : Except String Nat) = Except.ok 7 := h
  exact absurd (Except.ok.inj h2) (by decide)

/-- The resolver loop with an arbitrary starting accumulator appends, in payload
order, the unresolved keywords to the class side and the resolved declarations
to the style side. -/
theorem partitionKeywords_go (resolver : String → Option String) :
    ∀ (kws : List String) (c s : List String),
      kws.foldl
          (fun acc kls =>
            match resolver kls with
            | some r => (acc.1, acc.2 ++ [r])
            | none => (acc.1 ++ [kls], acc.2)) (c, s) =
        (c ++ kws.filter (fun k => (resolver k).isNone), s ++ kws.filterMap resolver) := by
  intro kws
  induction kws with
  | nil => intro c s; simp
  | cons kls rest ih =>
    intro c s
    cases hk : resolver kls with
    | none => simp [List.filter_cons, List.filterMap_cons, hk, ih]
    | some r => simp [List.filter_cons, List.filterMap_cons, hk, ih]

/-- C5: for every resolver and keyword list, the resolver loop puts each keyword
into exactly one accumulator — the class side when the resolver rejects it, the
style side (as its resolved declaration) when the resolver accepts it — keeping
payload order, which is exactly the filter/filterMap characterization. -/
theorem partitionKeywords_partition (resolver : String → Option String) (kws : List String) :
    partitionKeywords resolver kws =
      (kws.filter (fun k => (resolver k).isNone), kws.filterMap resolver) := by
  have h := partitionKeywords_go resolver kws [] []
  simpa [partitionKeywords] using h

/-- Setting the paragraph end of the last recorded annotation changes no
paragraph start. -/
theorem setLastEnd_map_start (acc : List ClassAnnot) (i : Nat) :
    (setLastEnd acc i).map (fun ca => ca.paragraph_start) =
      acc.map (fun ca => ca.paragraph_start) := by
  induction acc with
  | nil => rfl
  | cons a rest ih =>
    cases rest with
    | nil =>
      simp only [setLastEnd]
      split <;> simp
    | cons b rest2 =>
      simp only [setLastEnd, List.map_cons]
      rw [ih]
      simp

/-- One scanner step either leaves the recorded paragraph starts unchanged or,
when the index is positive, appends a single annotation starting at `i - 1`. -/
theorem scanStep_shape (resolver : String → Option String) (events : List Event)
    (acc acc2 : List ClassAnnot) (i : Nat)
    (h : scanStep resolver events acc i = Except.ok acc2) :
    acc2.map (fun ca => ca.paragraph_start) = acc.map (fun ca => ca.paragraph_start) ∨
      (0 < i ∧ ∃ ca : ClassAnnot, ca.paragraph_start = i - 1 ∧ acc2 = acc ++ [ca]) := by
  unfold scanStep at h
  split at h
  case _ t =>
    split at h
    case isTrue hi =>
      split at h
      case _ =>
        split at h
        case _ m hm => exact absurd h (by simp)
        case _ hm =>
          left
          simp only [Except.ok.injEq] at h
          rw [h]
        case _ payload hm =>
          right
          simp only [Except.ok.injEq] at h
          exact ⟨hi, ⟨_, rfl, h.symm⟩⟩
      case _ =>
        left
        simp only [Except.ok.injEq] at h
        rw [h]
    case isFalse hi =>
      left
      simp only [Except.ok.injEq] at h
      rw [h]
  case _ =>
    left
    simp only [Except.ok.injEq] at h
    rw [← h, setLastEnd_map_start]
  case _ =>
    left
    simp only [Except.ok.injEq] at h
    rw [h]

/-- Invariant of the scanner loop: if the recorded paragraph starts are strictly
increasing and all of them end at least two positions before the next index to
process, the loop preserves strict increase. -/
theorem scanGo_sorted (resolver : String → Option String) (events : List Event) :
    ∀ (fuel i : Nat) (acc cas : List ClassAnnot),
      (∀ x ∈ acc.map (fun ca => ca.paragraph_start), x + 2 ≤ i) →
      List.Pairwise (· < ·) (acc.map (fun ca => ca.paragraph_start)) →
      scanGo resolver events fuel i acc = Except.ok cas →
      List.Pairwise (· < ·) (cas.map (fun ca => ca.paragraph_start)) := by
  intro fuel
  induction fuel with
  | zero =>
    intro i acc cas hb hp h
    simp only [scanGo, Except.ok.injEq] at h
    rw [← h]
    exact hp
  | succ fuel ih =>
    intro i acc cas hb hp h
    simp only [scanGo] at h
    split at h
    case isTrue =>
      rcases hs : scanStep resolver events acc i with m | acc2
      · rw [hs] at h; exact absurd h (by simp)
      · rw [hs] at h
        rcases scanStep_shape resolver events acc acc2 i hs with hmap | ⟨hi, ca, hca, hacc⟩
        · refine ih (i + 1) acc2 cas ?_ ?_ h
          · rw [hmap]
            intro x hx
            have := hb x hx
            omega
          · rw [hmap]; exact hp
        · refine ih (i + 1) acc2 cas ?_ ?_ h
          · intro x hx
            rw [hacc, List.map_append] at hx
            rcases List.mem_append.mp hx with hx | hx
            · have := hb x hx; omega
            · simp only [List.map_cons, List.map_nil, List.mem_singleton] at hx
              omega
          · rw [hacc, List.map_append]
            rw [List.pairwise_append]
            refine ⟨hp, by simp, ?_⟩
            intro a ha b hbm
            simp only [List.map_cons, List.map_nil, List.mem_singleton] at hbm
            have := hb a ha
            omega
    case isFalse =>
      simp only [Except.ok.injEq] at h
      rw [← h]
      exact hp

/-- C9: every match list the scanner returns is strictly ordered by paragraph
start index, so in particular no two matches share a start index. -/
theorem scan_starts_sorted (resolver : String → Option String) (events : List Event)
    (cas : List ClassAnnot) (h : scan resolver events = Except.ok cas) :
    List.Pairwise (· < ·) (cas.map (fun ca => ca.paragraph_start)) :=
  scanGo_sorted resolver events events.length 0 [] cas (by simp) (by simp) h

/-- C9 witness: the sortedness theorem applied to the concrete multi-class
scenario stream, whose scan result is the single match starting at index 0. -/
theorem scan_starts_sorted_witness :
    List.Pairwise (· < ·)
      (([⟨"ab", "color:red;", 0, some 2⟩] : List ClassAnnot).map
        (fun ca => ca.paragraph_start)) :=
  scan_starts_sorted redResolver evAB [⟨"ab", "color:red;", 0, some 2⟩] rfl

/-- Length invariant of the rewriter loop: on a well-formed match list the loop
succeeds and emits, besides the tokens from the cursor to the end of the stream,
exactly two extra tokens per match (the wrapper pair is added, the annotation
text run is dropped, and the token at the recorded paragraph end is emitted
twice because the cursor stops on it). -/
theorem rewriteGo_length (incoming divs : List Event) :
    ∀ (cas : List ClassAnnot) (i last_end : Nat),
      wfMatches incoming.length last_end cas = true →
      last_end ≤ incoming.length →
      i + cas.length ≤ divs.length →
      ∃ out, rewriteGo incoming divs cas i last_end = Except.ok out ∧
        out.length = (incoming.length - last_end) + 2 * cas.length := by
  intro cas
  induction cas with
  | nil =>
    intro i last_end hwf hle hdiv
    refine ⟨incoming.drop last_end, ?_, ?_⟩
    · simp [rewriteGo, hle]
    · simp only [List.length_drop, List.length_nil]
      omega
  | cons ca rest ih =>
    intro i last_end hwf hle hdiv
    rcases he : ca.paragraph_end with _ | e
    · rw [wfMatches, he] at hwf
      simp at hwf
    · rw [wfMatches, he] at hwf
      simp only [Bool.and_eq_true, decide_eq_true_eq] at hwf
      obtain ⟨⟨⟨h1, h2⟩, h3⟩, h4⟩ := hwf
      have hdi : i < divs.length := by
        simp only [List.length_cons] at hdiv
        omega
      obtain ⟨tailOut, htail, htlen⟩ := ih (i + 1) e h4 (by omega) (by
        simp only [List.length_cons] at hdiv
        omega)
      have hplen :
          ((incoming.drop ca.paragraph_start).take (e + 1 - ca.paragraph_start)).length =
            e + 1 - ca.paragraph_start := by
        simp only [List.length_take, List.length_drop]
        omega
      simp only [rewriteGo, he]
      rw [if_neg (by omega)]
      rw [if_neg (by omega)]
      rw [if_neg (by omega), if_neg (by omega)]
      rw [List.getElem?_eq_getElem hdi]
      rw [htail]
      refine ⟨_, rfl, ?_⟩
      simp only [List.length_append, List.length_take, List.length_drop,
        List.length_cons, List.length_nil, hplen, htlen]
      omega

/-- C2 (amended): for every input stream and every well-formed match list (in
ascending order, non-overlapping, each with a recorded paragraph end inside the
stream — as the scanner produces on well-nested paragraphs), the rewriter output
has exactly input-count plus two-per-match tokens: the wrapper pair is added,
the annotation text run is removed, and, because the cursor advances only to
`paragraph_end_index` and not one past it, the paragraph-end token is emitted
twice. -/
theorem rewrite_length (incoming : List Event) (cas : List ClassAnnot)
    (h : wfMatches incoming.length 0 cas = true) :
    ∃ out, rewrite incoming cas = Except.ok out ∧
      out.length = incoming.length + 2 * cas.length := by
  obtain ⟨out, h1, h2⟩ :=
    rewriteGo_length incoming (cas.map divStart) cas 0 0 h (by omega) (by simp)
  exact ⟨out, h1, by omega⟩

/-- C2 witness: the amended length theorem applied to the scenario-1 stream with
its single scanned match; the output has six plus two tokens. -/
theorem rewrite_length_witness :
    ∃ out, rewrite ev6 [⟨"", "color:red;", 0, some 2⟩] = Except.ok out ∧
      out.length = ev6.length + 2 * ([⟨"", "color:red;", 0, some 2⟩] : List ClassAnnot).length :=
  rewrite_length ev6 [⟨"", "color:red;", 0, some 2⟩] (by decide)

end MdbookTailwind
